import Mathlib

/-!
Verification of the `undervalued` property-opportunity finder.

The repository ships a Next.js frontend (TypeScript sources under
`src/packages/frontend` and the shared files), API documentation and a
database schema.  The backend engine itself (Valuation Calculator,
Identity Resolver, Metrics Store, `getPropertyAnalysis`) is described by
the specification and the docs but its Python sources are not part of the
tree, so those components are modelled from the spec; the frontend
TypeScript is embedded directly.  JavaScript `number` values that the code
treats arithmetically are modelled as rationals (`ℚ`); optional TypeScript
fields become `Option`.
-/

namespace Undervalued

/-- Priority enum: `"High" | "Medium" | "Low"` from the `Metrics` TypeScript
interface (types file, line 28). -/
inductive Priority where
  | High
  | Medium
  | Low
deriving DecidableEq, Repr

/-- TypeScript `Listing` interface (types file, lines 13-20). -/
structure Listing where
  listing_id : String
  external_url : String
  asking_price : ℚ
  listing_date : String
  agent_name : Option String
  source : String
deriving DecidableEq, Repr

/-- TypeScript `Metrics` interface (types file, lines 22-30): the persisted
valuation metrics as the frontend receives them. -/
structure Metrics where
  current_ppsf : ℚ
  market_ppsf_12m : Option ℚ
  undervalued_index : Option ℚ
  projected_yield : Option ℚ
  comparable_count : ℕ
  priority : Option Priority
  calculated_at : String
deriving DecidableEq, Repr

/-- TypeScript `Transaction` interface (types file, lines 50-58). -/
structure Transaction where
  transaction_id : String
  uprn : String
  price_paid : ℚ
  date_of_transfer : String
  transaction_category : String
  price_per_sqft : Option ℚ
  floor_area_sqft : Option ℚ
deriving DecidableEq, Repr

/-- The `property` object inside the TypeScript `PropertyAnalysis` interface
(types file, lines 61-68). -/
structure PropertyRecord where
  uprn : String
  floor_area_sqft : Option ℚ
  property_type : String
  epc_rating : Option String
  current_listing_id : Option String
deriving DecidableEq, Repr

/-- TypeScript `PropertyAnalysis` interface (types file, lines 60-81), without
the purely presentational `chart_data`. -/
structure PropertyAnalysis where
  property : PropertyRecord
  current_listing : Option Listing
  metrics : Option Metrics
  historical_transactions : List Transaction
  comparables : List Transaction
deriving DecidableEq, Repr

/-- TypeScript `PaginatedResponse<T>` interface (types file, lines 42-48). -/
structure PaginatedResponse (α : Type) where
  items : List α
  total : ℕ
  page : ℕ
  per_page : ℕ
  pages : ℕ
deriving DecidableEq, Repr

/-- TypeScript `OpportunityFilters` interface (types file, lines 83-91). -/
structure OpportunityFilters where
  postcode_district : String
  min_discount_pct : Option ℚ
  max_price : Option ℚ
  property_types : Option (List String)
  sort_by : Option String
  page : Option ℕ
  per_page : Option ℕ
deriving DecidableEq, Repr

/-- TypeScript `IngestionRequest` interface (types file, lines 93-97). -/
structure IngestionRequest where
  source : Option String
  postcode_districts : Option (List String)
  force_refresh : Option Bool
deriving DecidableEq, Repr

/-! ## Valuation Calculator (spec §4.4), modelled from the spec -/

/-- Modelled from the spec: input to the Valuation Calculator.  The backend
`CanonicalProperty` entity (spec §3) is not under `src/`; only the fields
`compute` reads are modelled. -/
structure CanonicalProperty where
  uprn : String
  floor_area : Option ℚ
  property_type : String
deriving DecidableEq, Repr

/-- Modelled from the spec: a comparable historical sale as consumed by the
Valuation Calculator — price paid plus an optionally resolvable floor area
(spec §4.4: comparables lacking a resolvable area are excluded from the
mean). -/
structure Comparable where
  price_paid : ℚ
  floor_area : Option ℚ
deriving DecidableEq, Repr

/-- Modelled from the spec: the `ValuationMetrics` record produced by
`compute` (spec §4.4); every field that the spec allows to be omitted is
`Option`-valued, omission being `none`. -/
structure ValuationMetrics where
  current_ppsf : Option ℚ
  market_ppsf : Option ℚ
  undervalued_index : Option ℚ
  priority : Option Priority
  comparable_count : ℕ
  projected_yield : Option ℚ
deriving DecidableEq, Repr

/-- Price-per-square-foot of every comparable whose floor area is resolvable
(spec §4.4: unresolvable areas are excluded, never zero-filled or imputed). -/
def comparablePpsfs (comps : List Comparable) : List ℚ :=
  comps.filterMap (fun c => c.floor_area.map (fun a => c.price_paid / a))

/-- Arithmetic mean of a list of rationals. -/
def meanQ (l : List ℚ) : ℚ :=
  l.sum / l.length

/-- Priority bucketing of a defined undervalued index (spec §4.4): High if the
index exceeds 0.15, Medium if it exceeds 0.05, else Low. -/
def priorityOf (idx : ℚ) : Priority :=
  if 15 / 100 < idx then Priority.High
  else if 5 / 100 < idx then Priority.Medium
  else Priority.Low

/-- Modelled from the spec: the Valuation Calculator
`compute(property, listing, comparables) -> ValuationMetrics` (spec §4.4).
The backend implementation is not under `src/`.  When the floor area is
absent, `current_ppsf` and every field derived from it are omitted.
`market_ppsf` is the mean ppsf over area-resolvable comparables, present only
when the comparable count meets the minimum threshold (spec §8 example:
`comparable_count=3` with `minimum_threshold=5` gives null `market_ppsf`);
the undervalued index is `(market - current) / market` whenever both exist,
negative values preserved. -/
def compute (minThreshold : ℕ) (p : CanonicalProperty) (l : Listing)
    (comps : List Comparable) (yieldEst : Option ℚ) : ValuationMetrics :=
  match p.floor_area with
  | none =>
      { current_ppsf := none
        market_ppsf := none
        undervalued_index := none
        priority := none
        comparable_count := comps.length
        projected_yield := yieldEst }
  | some area =>
      let current := l.asking_price / area
      let ppsfs := comparablePpsfs comps
      let market : Option ℚ :=
        if minThreshold ≤ comps.length ∧ ppsfs ≠ [] then some (meanQ ppsfs) else none
      let idx := market.map (fun m => (m - current) / m)
      { current_ppsf := some current
        market_ppsf := market
        undervalued_index := idx
        priority := idx.map priorityOf
        comparable_count := comps.length
        projected_yield := yieldEst }

/-! ## Frontend: OpportunityCard (OpportunityCard.tsx) -/

/-- Display label of a priority, as interpolated into the card badge
(`OpportunityCard.tsx`, line 46). -/
def priorityLabel : Priority → String
  | Priority.High => "High"
  | Priority.Medium => "Medium"
  | Priority.Low => "Low"

/-- The `priorityColors` lookup of `OpportunityCard.tsx` (lines 22-26). -/
def priorityColors : Priority → String
  | Priority.High => "bg-emerald-500/20 text-emerald-400 border-emerald-500/30"
  | Priority.Medium => "bg-amber-500/20 text-amber-400 border-amber-500/30"
  | Priority.Low => "bg-slate-500/20 text-slate-400 border-slate-500/30"

/-- The badge colour of the card, `priorityColors[metrics.priority || "Low"]`
(`OpportunityCard.tsx`, line 27): `||` falls back to the Low colour when the
priority is null. -/
def cardPriorityColor (m : Metrics) : String :=
  priorityColors (m.priority.getD Priority.Low)

/-- The priority badge actually rendered on an opportunity card
(`OpportunityCard.tsx`, lines 44-48): the span exists only when
`metrics.priority` is truthy, and then shows the priority label together with
its colour class.  A null priority renders no badge at all. -/
def cardBadge (m : Metrics) : Option (String × String) :=
  match m.priority with
  | some p => some (priorityLabel p, cardPriorityColor m)
  | none => none

/-- The "X% below market" tagline of the price row (`OpportunityCard.tsx`,
lines 56-60): rendered only when `metrics.undervalued_index !== undefined`
and strictly positive; the rendered value is the index itself (then formatted
by `formatPercent`). -/
def cardBelowMarketTag (m : Metrics) : Option ℚ :=
  match m.undervalued_index with
  | some v => if 0 < v then some v else none
  | none => none

/-! ## Frontend: property page (PropertyPage component) -/

/-- The Discount metric box value on the property page,
`metrics?.undervalued_index ? formatPercent(metrics.undervalued_index) : "—"`
(`PropertyPage`, lines 213-217): JavaScript truthiness shows the dash when the
metrics object or the index is absent, or when the index is exactly 0;
otherwise the index value itself is displayed (positive or negative). -/
def discountDisplay (m : Option Metrics) : Option ℚ :=
  match m.bind (fun x => x.undervalued_index) with
  | some v => if v = 0 then none else some v
  | none => none

/-- Whether the Current Listing sidebar box renders on the property page:
`{current_listing && (...)}` (`PropertyPage`, line 262) — it depends only on
the presence of the listing, never on the metrics. -/
def listingVisible (pa : PropertyAnalysis) : Bool :=
  pa.current_listing.isSome

/-! ## Frontend: useOpportunities hook (hooks file) -/

/-- The `enabled` gate of the `useOpportunities` React Query hook (hooks file,
line 69): `!!filters.postcode_district && filters.postcode_district.length >= 2`.
The query function runs — i.e. a request to `/api/v1/opportunities` is
issued — exactly when this is true. -/
def useOpportunitiesEnabled (f : OpportunityFilters) : Bool :=
  decide (f.postcode_district ≠ "") && decide (2 ≤ f.postcode_district.length)

/-- The request the `useOpportunities` hook issues: the filter set, when the
`enabled` gate passes, and nothing otherwise (React Query runs no query
function for a disabled query). -/
def useOpportunitiesRequest (f : OpportunityFilters) : Option OpportunityFilters :=
  if useOpportunitiesEnabled f then some f else none

/-! ## Frontend: admin page handleIngest (admin page file) -/

/-- JavaScript `String.prototype.split(",")` embedded structurally over the
character list: accumulate the current segment, emitting it at every comma;
the trailing segment is always emitted, so `"".split(",")` is `[""]`. -/
def splitOnCommaAux : List Char → List Char → List (List Char)
  | [], acc => [acc.reverse]
  | c :: rest, acc =>
      if c = ',' then acc.reverse :: splitOnCommaAux rest []
      else splitOnCommaAux rest (c :: acc)

/-- Split a character list at every comma (JavaScript `split(",")`). -/
def splitOnComma (l : List Char) : List (List Char) :=
  splitOnCommaAux l []

/-- JavaScript `String.prototype.trim()`: strip leading and trailing
whitespace. -/
def trimChars (l : List Char) : List Char :=
  ((l.dropWhile Char.isWhitespace).reverse.dropWhile Char.isWhitespace).reverse

/-- The postcode-district pipeline of `handleIngest` (admin page, lines 13-16):
split the raw input on commas, trim and uppercase each entry
(`d.trim().toUpperCase()`), and drop the entries that are empty
(`filter(Boolean)`). -/
def handleIngestDistricts (input : String) : List String :=
  ((splitOnComma input.data).map
    (fun d => String.mk ((trimChars d).map Char.toUpper))).filter
    (fun d => d != "")

/-- The ingestion request built by `handleIngest` (admin page, lines 18-22):
source `"all"`, `force_refresh` false, and the district list when non-empty,
`undefined` (omitted) otherwise. -/
def handleIngestRequest (input : String) : IngestionRequest :=
  let districts := handleIngestDistricts input
  { source := some "all"
    postcode_districts := if districts.length > 0 then some districts else none
    force_refresh := some false }

/-! ## Frontend: OpportunitiesGrid pagination (OpportunitiesGrid.tsx) -/

/-- Disabled state of the Previous button (`OpportunitiesGrid.tsx`, line 71):
`data.page <= 1`. -/
def prevDisabled (d : PaginatedResponse α) : Bool :=
  decide (d.page ≤ 1)

/-- Disabled state of the Next button (`OpportunitiesGrid.tsx`, line 100):
`data.page >= data.pages`. -/
def nextDisabled (d : PaginatedResponse α) : Bool :=
  decide (d.pages ≤ d.page)

/-- The numbered page buttons (`OpportunitiesGrid.tsx`, lines 78-92):
`Array.from({length: Math.min(data.pages, 5)})` with `pageNum = i + 1`, that
is the pages `1, …, min(pages, 5)`. -/
def numberedPages (d : PaginatedResponse α) : List ℕ :=
  (List.range (min d.pages 5)).map (fun i => i + 1)

/-- Every page number a click inside the rendered pagination block can pass to
`onPageChange`: the block renders only when `data.pages > 1` (line 67);
Previous sends `page - 1` unless disabled, Next sends `page + 1` unless
disabled, and each numbered button sends its own number. -/
def requestablePages (d : PaginatedResponse α) : List ℕ :=
  if d.pages ≤ 1 then []
  else
    (if prevDisabled d then [] else [d.page - 1]) ++
      numberedPages d ++
      (if nextDisabled d then [] else [d.page + 1])

/-! ## Metrics Store / Query pagination (spec §4.5, docs/API.md), modelled
from the spec -/

/-- Modelled from the spec: the pagination of the Metrics Store query
(spec §4.5, `docs/API.md`); the backend handler is not under `src/`.
`per_page` is clamped to `[1, 100]`, the page count is the ceiling of
`total / per_page`, and the items of page `p` are the window at offset
`(p - 1) * per_page` — an out-of-range page therefore yields an empty window
while `total` still reports the full result-set size. -/
def queryOpportunities (results : List α) (page perPage : ℕ) :
    PaginatedResponse α :=
  let pp := max 1 (min 100 perPage)
  let total := results.length
  { items := (results.drop ((page - 1) * pp)).take pp
    total := total
    page := page
    per_page := pp
    pages := (total + pp - 1) / pp }

/-! ## getPropertyAnalysis (spec §6, §7, docs/API.md), modelled from
the spec -/

/-- Error taxonomy of the query-facing layer that reaches the frontend:
`docs/API.md` documents `404 Not Found` for an unknown UPRN. -/
inductive ApiError where
  | notFound
deriving DecidableEq, Repr

/-- Modelled from the spec: a property row of the Metrics Store as
`getPropertyAnalysis` reads it — the property with its optional current
listing, optional computed metrics, and its transactions and comparables.
The backend models are not under `src/`. -/
structure StoredProperty where
  uprn : String
  floor_area_sqft : Option ℚ
  property_type : String
  epc_rating : Option String
  current_listing : Option Listing
  metrics : Option Metrics
  transactions : List Transaction
  comparables : List Transaction
deriving DecidableEq, Repr

/-- Modelled from the spec:
`getPropertyAnalysis(identity) -> {property, metrics?, historical_transactions,
comparables}` (spec §6, §7; `docs/API.md`).  The backend handler is not under
`src/`.  A known property is returned successfully even when it has no
computed metrics; an unknown identity is Not-Found. -/
def getPropertyAnalysis (db : List StoredProperty) (u : String) :
    Except ApiError PropertyAnalysis :=
  match db.find? (fun p => p.uprn == u) with
  | none => Except.error ApiError.notFound
  | some p =>
      Except.ok
        { property :=
            { uprn := p.uprn
              floor_area_sqft := p.floor_area_sqft
              property_type := p.property_type
              epc_rating := p.epc_rating
              current_listing_id := p.current_listing.map (fun l => l.listing_id) }
          current_listing := p.current_listing
          metrics := p.metrics
          historical_transactions := p.transactions
          comparables := p.comparables }

/-! ## Identity Resolver (spec §4.1), modelled from the spec -/

/-- Modelled from the spec: one row of the persistent alias table of the
Identity Resolver (spec §4.1, §9): raw key, canonical identity, and the
confidence of the match that established the mapping.  The backend resolver is
not under `src/`. -/
structure AliasEntry where
  rawKey : String
  canonicalId : String
  confidence : ℚ
deriving DecidableEq, Repr

/-- The alias table: raw key → canonical identity, an explicit inspectable
mapping (spec §9). -/
abbrev AliasTable := List AliasEntry

/-- Lookup of a raw key in the alias table. -/
def lookupAlias (t : AliasTable) (k : String) : Option AliasEntry :=
  t.find? (fun e => e.rawKey == k)

/-- Modelled from the spec: recording a fuzzy-match result in the alias table
(spec §4.1).  A fresh raw key is inserted; an existing mapping is replaced
only when the new match has strictly higher confidence, so a
higher-confidence match is never overwritten by a lower-confidence one. -/
def recordAlias (t : AliasTable) (raw canonical : String) (conf : ℚ) :
    AliasTable :=
  match lookupAlias t raw with
  | none => { rawKey := raw, canonicalId := canonical, confidence := conf } :: t
  | some e =>
      if e.confidence < conf then
        t.map (fun x =>
          if x.rawKey == raw then
            { rawKey := raw, canonicalId := canonical, confidence := conf }
          else x)
      else t

/-- Modelled from the spec: one run of
`resolve(rawAddress, sourceHints) -> PropertyIdentity | Unresolved`
(spec §4.1) together with its effect on the persistent alias table.  The
alias table is consulted first, so repeated inputs resolve deterministically;
otherwise the fuzzy matcher (abstracted as `matcher`, returning a candidate
identity with its confidence) is consulted, its result accepted only at or
above the calibrated threshold — below it the resolver returns Unresolved
(`none`) rather than guessing. -/
def resolveAndRecord (matcher : String → List String → Option (String × ℚ))
    (threshold : ℚ) (t : AliasTable) (raw : String) (hints : List String) :
    Option String × AliasTable :=
  match lookupAlias t raw with
  | some e => (some e.canonicalId, t)
  | none =>
      match matcher raw hints with
      | some (canonical, conf) =>
          if threshold ≤ conf then
            (some canonical, recordAlias t raw canonical conf)
          else (none, t)
      | none => (none, t)

/-! ## Concrete fixtures used by the examples of spec §8 -/

/-- Listing of the spec §8 worked example: asking price 500000. -/
def exListing : Listing :=
  { listing_id := "L1"
    external_url := "https://portal.example/l1"
    asking_price := 500000
    listing_date := "2026-01-02"
    agent_name := none
    source := "rightmove" }

/-- Property of the spec §8 worked example: floor area 1000. -/
def exProp : CanonicalProperty :=
  { uprn := "100000000001", floor_area := some 1000, property_type := "Terraced" }

/-- A comparable with resolvable ppsf 600. -/
def exComp : Comparable := { price_paid := 600000, floor_area := some 1000 }

/-- Five comparables of ppsf 600 each: mean market ppsf 600, meeting a
minimum threshold of 5. -/
def exComps5 : List Comparable := List.replicate 5 exComp

/-- Three comparables of ppsf 600 each: below a minimum threshold of 5. -/
def exComps3 : List Comparable := List.replicate 3 exComp

/-! ## Theorems -/

/-- Evaluation of the Valuation Calculator on the spec §8 example: asking
price 500000 over 1000 sqft against five comparables of ppsf 600 each, with
minimum threshold 5. -/
theorem compute_example5_eval :
    compute 5 exProp exListing exComps5 none =
      { current_ppsf := some 500
        market_ppsf := some 600
        undervalued_index := some (1 / 6)
        priority := some Priority.High
        comparable_count := 5
        projected_yield := none } := by
  simp only [compute, exProp, exListing, exComps5, exComp, comparablePpsfs,
    meanQ, List.replicate, List.filterMap_cons, List.filterMap_nil,
    Option.map_some, List.length_cons, List.length_nil]
  norm_num [priorityOf]
  refine ⟨fun h => absurd h (by simp), ⟨600, ⟨by simp, rfl⟩, by norm_num⟩,
    ⟨600, ⟨by simp, rfl⟩, fun h => absurd h (by norm_num)⟩⟩

/-- Evaluation of the Valuation Calculator on the spec §8 second example:
three comparables against minimum threshold 5 leave the market ppsf, the
index and the priority all null. -/
theorem compute_example3_eval :
    compute 5 exProp exListing exComps3 none =
      { current_ppsf := some 500
        market_ppsf := none
        undervalued_index := none
        priority := none
        comparable_count := 3
        projected_yield := none } := by
  simp only [compute, exProp, exListing, exComps3, exComp, comparablePpsfs,
    meanQ, List.replicate, List.filterMap_cons, List.filterMap_nil,
    Option.map_some, List.length_cons, List.length_nil]
  norm_num

/-- When both the market ppsf and the current ppsf of a computed
`ValuationMetrics` are defined, the undervalued index is exactly
`(market - current) / market`. -/
theorem compute_index_formula (t : ℕ) (p : CanonicalProperty) (l : Listing)
    (comps : List Comparable) (y : Option ℚ) (m c : ℚ)
    (hm : (compute t p l comps y).market_ppsf = some m)
    (hc : (compute t p l comps y).current_ppsf = some c) :
    (compute t p l comps y).undervalued_index = some ((m - c) / m) := by
  cases hp : p.floor_area with
  | none => simp [compute, hp] at hm
  | some area =>
    simp only [compute, hp] at hm hc ⊢
    rw [Option.some.injEq] at hc
    subst hc
    split at hm
    next h =>
      simp only [Option.some.injEq] at hm
      simp [← hm, h]
    next => simp at hm

/-- The priority of a computed `ValuationMetrics` is the bucketing of its
undervalued index; in particular it is null exactly when the index is. -/
theorem compute_priority_eq (t : ℕ) (p : CanonicalProperty) (l : Listing)
    (comps : List Comparable) (y : Option ℚ) :
    (compute t p l comps y).priority =
      (compute t p l comps y).undervalued_index.map priorityOf := by
  cases hp : p.floor_area <;> simp [compute, hp]

/-- C1: for every computed `ValuationMetrics`, the undervalued index equals
`(market_ppsf - current_ppsf) / market_ppsf`, and it is non-null iff
`market_ppsf` is non-null and the comparable count meets the minimum
threshold; on the spec §8 example (`asking_price = 500000`,
`floor_area = 1000`, comparable mean ppsf 600) the current ppsf is 500 and
the index is `(600 - 500) / 600 = 1/6`. -/
theorem undervalued_index_spec (t : ℕ) (p : CanonicalProperty) (l : Listing)
    (comps : List Comparable) (y : Option ℚ) :
    ((compute t p l comps y).undervalued_index.isSome ↔
      ((compute t p l comps y).market_ppsf.isSome ∧
        t ≤ (compute t p l comps y).comparable_count)) ∧
    (∀ m c : ℚ, (compute t p l comps y).market_ppsf = some m →
      (compute t p l comps y).current_ppsf = some c →
      (compute t p l comps y).undervalued_index = some ((m - c) / m)) ∧
    (compute 5 exProp exListing exComps5 none).current_ppsf = some 500 ∧
    (compute 5 exProp exListing exComps5 none).undervalued_index = some (1 / 6) := by
  refine ⟨?_, fun m c hm hc => compute_index_formula t p l comps y m c hm hc,
    by rw [compute_example5_eval], by rw [compute_example5_eval]⟩
  cases hp : p.floor_area with
  | none => simp [compute, hp]
  | some area =>
    simp only [compute, hp]
    split
    next h => simpa using h.1
    next h => simp [h]

/-- Witness for C1 at the spec §8 example: the market ppsf is 600, the
current ppsf 500, and the theorem yields the index `(600 - 500) / 600`. -/
theorem undervalued_index_spec_witness :
    (compute 5 exProp exListing exComps5 none).undervalued_index =
      some ((600 - 500) / 600) :=
  (undervalued_index_spec 5 exProp exListing exComps5 none).2.1 600 500
    (by rw [compute_example5_eval]) (by rw [compute_example5_eval])

/-- C2: for every computed `ValuationMetrics`, the priority is High exactly
when the defined index exceeds 0.15, Medium exactly when it exceeds 0.05
without exceeding 0.15, and Low exactly otherwise; the priority is null
exactly when the index is undefined; and wherever the priority is consumed
(the opportunity card badge), the null state renders no badge at all while a
Low priority renders one, so the two are never conflated.  On the spec §8
example with three comparables against threshold 5, market ppsf, index and
priority are all null. -/
theorem priority_classification (t : ℕ) (p : CanonicalProperty) (l : Listing)
    (comps : List Comparable) (y : Option ℚ) :
    (∀ i : ℚ, (compute t p l comps y).undervalued_index = some i →
      (((compute t p l comps y).priority = some Priority.High ↔ 15 / 100 < i) ∧
        ((compute t p l comps y).priority = some Priority.Medium ↔
          (5 / 100 < i ∧ i ≤ 15 / 100)) ∧
        ((compute t p l comps y).priority = some Priority.Low ↔ i ≤ 5 / 100))) ∧
    ((compute t p l comps y).priority = none ↔
      (compute t p l comps y).undervalued_index = none) ∧
    (∀ m : Metrics, cardBadge m = none ↔ m.priority = none) ∧
    (compute 5 exProp exListing exComps3 none).market_ppsf = none ∧
    (compute 5 exProp exListing exComps3 none).undervalued_index = none ∧
    (compute 5 exProp exListing exComps3 none).priority = none := by
  have hmap := compute_priority_eq t p l comps y
  refine ⟨?_, ?_, ?_, by rw [compute_example3_eval], by rw [compute_example3_eval],
    by rw [compute_example3_eval]⟩
  · intro i hi
    rw [hmap, hi]
    by_cases h1 : 15 / 100 < i
    · have h2 : 5 / 100 < i := lt_trans (by norm_num) h1
      simp [priorityOf, h1, h2, not_le.mpr h1, not_le.mpr h2]
    · by_cases h2 : 5 / 100 < i
      · simp [priorityOf, h1, h2, not_lt.mp h1, not_le.mpr h2]
      · simp [priorityOf, h1, h2, not_lt.mp h2]
  · rw [hmap]
    cases (compute t p l comps y).undervalued_index <;> simp
  · intro m
    cases h : m.priority <;> simp [cardBadge, h]

/-- Witness for C2: on the spec §8 five-comparable example the index is 1/6,
which exceeds 0.15, so the computed priority is High. -/
theorem priority_classification_witness :
    (compute 5 exProp exListing exComps5 none).priority = some Priority.High :=
  ((priority_classification 5 exProp exListing exComps5 none).1 (1 / 6)
    (by rw [compute_example5_eval])).1.mpr (by norm_num)

/-- A property of the missing-floor-area error case. -/
def exPropNoArea : CanonicalProperty :=
  { uprn := "100000000002", floor_area := none, property_type := "Flat" }

/-- C3: when the floor area of the property is absent, `compute` omits
`current_ppsf` and every field derived from it (`market_ppsf`,
`undervalued_index`, `priority`), while the listing display on the property
page depends only on the presence of the current listing — it is unaffected
by the metrics, so the listing stays visible. -/
theorem missing_floor_area_degrades (t : ℕ) (p : CanonicalProperty)
    (l : Listing) (comps : List Comparable) (y : Option ℚ)
    (h : p.floor_area = none) :
    (compute t p l comps y).current_ppsf = none ∧
    (compute t p l comps y).market_ppsf = none ∧
    (compute t p l comps y).undervalued_index = none ∧
    (compute t p l comps y).priority = none ∧
    (∀ pa : PropertyAnalysis, ∀ m : Option Metrics,
      listingVisible { pa with metrics := m } = listingVisible pa) ∧
    (∀ pa : PropertyAnalysis, listingVisible pa = true ↔
      pa.current_listing ≠ none) := by
  refine ⟨by simp [compute, h], by simp [compute, h], by simp [compute, h],
    by simp [compute, h], fun pa m => rfl, fun pa => ?_⟩
  simp [listingVisible, Option.isSome_iff_ne_none]

/-- Witness for C3: the concrete no-floor-area property yields a metrics
record with current ppsf and undervalued index both omitted. -/
theorem missing_floor_area_degrades_witness :
    (compute 5 exPropNoArea exListing exComps5 none).current_ppsf = none ∧
    (compute 5 exPropNoArea exListing exComps5 none).undervalued_index = none :=
  ⟨(missing_floor_area_degrades 5 exPropNoArea exListing exComps5 none rfl).1,
    (missing_floor_area_degrades 5 exPropNoArea exListing exComps5 none rfl).2.2.1⟩

/-- An overpriced listing: asking price 700000 over the same 1000 sqft, so
its current ppsf (700) sits above the market benchmark of 600. -/
def exListingHigh : Listing :=
  { exListing with listing_id := "L2", asking_price := 700000 }

/-- Field evaluation of the Valuation Calculator on the overpriced example:
market ppsf 600, current ppsf 700. -/
theorem compute_high_fields :
    (compute 5 exProp exListingHigh exComps5 none).market_ppsf = some 600 ∧
    (compute 5 exProp exListingHigh exComps5 none).current_ppsf = some 700 := by
  constructor
  · simp only [compute, exProp, exListingHigh, exListing, exComps5, exComp,
      comparablePpsfs, meanQ, List.replicate, List.filterMap_cons,
      List.filterMap_nil, Option.map_some, List.length_cons, List.length_nil]
    norm_num
    exact fun h => absurd h (by simp)
  · simp only [compute, exProp, exListingHigh, exListing, exComps5, exComp,
      comparablePpsfs, meanQ, List.replicate, List.filterMap_cons,
      List.filterMap_nil, Option.map_some, List.length_cons, List.length_nil]
    norm_num

/-- C4: a negative undervalued index (listing priced above its benchmark) is
preserved exactly as `(market - current) / market`, a strictly negative
value — never clamped to zero or dropped; and the Discount box of the property page
box surfaces any strictly negative index verbatim. -/
theorem negative_index_preserved (t : ℕ) (p : CanonicalProperty) (l : Listing)
    (comps : List Comparable) (y : Option ℚ) (m c : ℚ)
    (hm : (compute t p l comps y).market_ppsf = some m)
    (hc : (compute t p l comps y).current_ppsf = some c)
    (hmpos : 0 < m) (hneg : m < c) :
    (compute t p l comps y).undervalued_index = some ((m - c) / m) ∧
    (m - c) / m < 0 ∧
    (∀ mets : Metrics, ∀ v : ℚ, mets.undervalued_index = some v → v < 0 →
      discountDisplay (some mets) = some v) := by
  refine ⟨compute_index_formula t p l comps y m c hm hc,
    div_neg_of_neg_of_pos (by linarith) hmpos, ?_⟩
  intro mets v hv hvneg
  simp [discountDisplay, hv, hvneg.ne]

/-- Witness for C4: the overpriced example yields the index
`(600 - 700) / 600 = -1/6`, strictly negative and stored as such. -/
theorem negative_index_preserved_witness :
    (compute 5 exProp exListingHigh exComps5 none).undervalued_index =
      some ((600 - 700) / 600) ∧ ((600 : ℚ) - 700) / 600 < 0 :=
  ⟨(negative_index_preserved 5 exProp exListingHigh exComps5 none 600 700
      compute_high_fields.1 compute_high_fields.2 (by norm_num) (by norm_num)).1,
    (negative_index_preserved 5 exProp exListingHigh exComps5 none 600 700
      compute_high_fields.1 compute_high_fields.2 (by norm_num) (by norm_num)).2.1⟩

/-- Ceiling division upper bound: `a ≤ ⌈a / b⌉ * b` with the ceiling written
as `(a + b - 1) / b`. -/
theorem nat_le_ceil_mul {b : ℕ} (hb : 0 < b) (a : ℕ) :
    a ≤ (a + b - 1) / b * b := by
  rcases a with _ | s
  · exact Nat.zero_le _
  · have hs : s + 1 + b - 1 = s + b := by omega
    rw [hs, Nat.add_div_right s hb]
    have h2 : s % b < b := Nat.mod_lt s hb
    calc s + 1
        = b * (s / b) + s % b + 1 := by rw [Nat.div_add_mod]
      _ ≤ b * (s / b) + b := by omega
      _ = (s / b + 1) * b := by ring

/-- Ceiling division minimality: `(a + b - 1) / b` is at most any `n` whose
multiple `n * b` already covers `a`. -/
theorem nat_ceil_le_of_le {b : ℕ} (hb : 0 < b) (a n : ℕ) (h : a ≤ n * b) :
    (a + b - 1) / b ≤ n := by
  rcases a with _ | s
  · have hlt : b - 1 < b := by omega
    simp [Nat.div_eq_of_lt hlt]
  · have hs : s + 1 + b - 1 = s + b := by omega
    rw [hs, Nat.add_div_right s hb]
    have hq : s / b < n := by
      rw [Nat.div_lt_iff_lt_mul hb]
      omega
    omega

/-- C5: the Metrics Store query clamps `per_page` to `[1, 100]`; its page
count is exactly the ceiling of `total / per_page` (the least number of pages
covering the results); any page beyond the last yields an empty item list
while `total` still reports the full count; and on the spec §8 example,
45 results at 20 per page give 3 pages, and page 4 returns zero items with
`total = 45`. -/
theorem query_pagination_spec {α : Type} (results : List α)
    (page perPage : ℕ) :
    (1 ≤ (queryOpportunities results page perPage).per_page ∧
      (queryOpportunities results page perPage).per_page ≤ 100) ∧
    ((queryOpportunities results page perPage).total ≤
        (queryOpportunities results page perPage).pages *
          (queryOpportunities results page perPage).per_page ∧
      ∀ n : ℕ,
        (queryOpportunities results page perPage).total ≤
            n * (queryOpportunities results page perPage).per_page →
          (queryOpportunities results page perPage).pages ≤ n) ∧
    ((queryOpportunities results page perPage).pages < page →
      (queryOpportunities results page perPage).items = [] ∧
      (queryOpportunities results page perPage).total = results.length) ∧
    (queryOpportunities (List.range 45) 1 20).pages = 3 ∧
    (queryOpportunities (List.range 45) 4 20).items = [] ∧
    (queryOpportunities (List.range 45) 4 20).total = 45 := by
  have hpp : 0 < max 1 (min 100 perPage) := by omega
  refine ⟨?_, ⟨?_, ?_⟩, ?_, by decide, by decide, by decide⟩
  · simp only [queryOpportunities]
    omega
  · simp only [queryOpportunities]
    exact nat_le_ceil_mul hpp results.length
  · intro n hn
    simp only [queryOpportunities] at hn ⊢
    exact nat_ceil_le_of_le hpp results.length n hn
  · intro hbig
    simp only [queryOpportunities] at hbig ⊢
    refine ⟨?_, by trivial⟩
    have hcov : results.length ≤
        (results.length + max 1 (min 100 perPage) - 1) / max 1 (min 100 perPage) *
          max 1 (min 100 perPage) :=
      nat_le_ceil_mul hpp results.length
    have hdrop : results.length ≤ (page - 1) * max 1 (min 100 perPage) := by
      have hmono : (results.length + max 1 (min 100 perPage) - 1) /
            max 1 (min 100 perPage) * max 1 (min 100 perPage) ≤
          (page - 1) * max 1 (min 100 perPage) :=
        Nat.mul_le_mul_right _ (by omega)
      omega
    rw [List.drop_eq_nil_of_le hdrop]
    simp

/-- Witness for C5: page 4 of 45 results at 20 per page is beyond the last
page, so the item list is empty while the total stays 45. -/
theorem query_pagination_spec_witness :
    (queryOpportunities (List.range 45) 4 20).items = [] ∧
    (queryOpportunities (List.range 45) 4 20).total = (List.range 45).length :=
  (query_pagination_spec (List.range 45) 4 20).2.2.1 (by decide)

/-- A stored property with transactions but no computed metrics yet. -/
def exStored : StoredProperty :=
  { uprn := "100000000001"
    floor_area_sqft := some 1000
    property_type := "Terraced"
    epc_rating := some "C"
    current_listing := some exListing
    metrics := none
    transactions := []
    comparables := [] }

/-- C6: `getPropertyAnalysis` on a known property identity whose metrics are
not yet computed succeeds, returning the property together with its
transactions and comparables but with the metrics field absent; on an
identity no stored property carries, it returns Not-Found. -/
theorem property_analysis_spec (db : List StoredProperty) (u : String) :
    (∀ p : StoredProperty, db.find? (fun q => q.uprn == u) = some p →
      p.metrics = none →
      ∃ pa : PropertyAnalysis, getPropertyAnalysis db u = Except.ok pa ∧
        pa.metrics = none ∧ pa.property.uprn = p.uprn ∧
        pa.historical_transactions = p.transactions ∧
        pa.comparables = p.comparables) ∧
    ((∀ p ∈ db, p.uprn ≠ u) →
      getPropertyAnalysis db u = Except.error ApiError.notFound) := by
  constructor
  · intro p hf hm
    refine ⟨⟨⟨p.uprn, p.floor_area_sqft, p.property_type, p.epc_rating,
      p.current_listing.map (fun l => l.listing_id)⟩,
      p.current_listing, p.metrics, p.transactions, p.comparables⟩,
      ?_, hm, rfl, rfl, rfl⟩
    simp [getPropertyAnalysis, hf]
  · intro hnone
    have hf : db.find? (fun q => q.uprn == u) = none := by
      rw [List.find?_eq_none]
      intro x hx
      simpa using hnone x hx
    simp [getPropertyAnalysis, hf]

/-- Witness for C6: the single-property store returns its metrics-less
property successfully for its own UPRN, and Not-Found for an unknown one. -/
theorem property_analysis_spec_witness :
    getPropertyAnalysis [exStored] "100000000001" ≠
        Except.error ApiError.notFound ∧
      getPropertyAnalysis [exStored] "999999999999" =
        Except.error ApiError.notFound := by
  constructor
  · obtain ⟨pa, hok, -, -, -, -⟩ :=
      (property_analysis_spec [exStored] "100000000001").1 exStored
        (by decide) rfl
    rw [hok]
    simp
  · exact (property_analysis_spec [exStored] "999999999999").2 (by decide)

/-- C7: two successive runs of the Identity Resolver on the same raw address
and hints — the second against the alias table left behind by the first —
return the same identity (or are both Unresolved): resolution is
deterministic through the persistent alias table.  Moreover, for an alias
mapping already in the table, a later match of lower or equal confidence
never overwrites it. -/
theorem resolver_determinism
    (matcher : String → List String → Option (String × ℚ)) (threshold : ℚ)
    (t : AliasTable) (raw : String) (hints : List String) :
    ((resolveAndRecord matcher threshold
        (resolveAndRecord matcher threshold t raw hints).2 raw hints).1 =
      (resolveAndRecord matcher threshold t raw hints).1) ∧
    (∀ (k canonical : String) (conf : ℚ) (e : AliasEntry),
      lookupAlias t k = some e → conf ≤ e.confidence →
      recordAlias t k canonical conf = t) := by
  constructor
  · cases hl : lookupAlias t raw with
    | some e => simp [resolveAndRecord, hl]
    | none =>
      cases hm : matcher raw hints with
      | none => simp [resolveAndRecord, hl, hm]
      | some pr =>
        obtain ⟨canonical, conf⟩ := pr
        by_cases hth : threshold ≤ conf
        · have hrec : recordAlias t raw canonical conf =
              (⟨raw, canonical, conf⟩ : AliasEntry) :: t := by
            simp [recordAlias, hl]
          have hl2 : lookupAlias ((⟨raw, canonical, conf⟩ : AliasEntry) :: t)
              raw = some (⟨raw, canonical, conf⟩ : AliasEntry) := by
            simp [lookupAlias]
          simp [resolveAndRecord, hl, hm, hth, hrec, hl2]
        · simp [resolveAndRecord, hl, hm, hth]
  · intro k canonical conf e hlk hconf
    simp [recordAlias, hlk, not_lt.mpr hconf]

/-- An alias table holding one high-confidence mapping. -/
def exAliasTable : AliasTable :=
  [{ rawKey := "10 high street", canonicalId := "100000000001",
      confidence := 9 }]

/-- Witness for C7: recording a lower-confidence match (confidence 5 against
the stored 9) for an already-mapped raw key leaves the table unchanged. -/
theorem resolver_determinism_witness :
    recordAlias exAliasTable "10 high street" "200000000002" 5 =
      exAliasTable :=
  (resolver_determinism (fun _ _ => none) 7 exAliasTable
      "10 high street" []).2 "10 high street" "200000000002" 5
    { rawKey := "10 high street", canonicalId := "100000000001",
      confidence := 9 } (by decide) (by norm_num)

/-- C8: the `useOpportunities` hook issues its request exactly when the
postcode district of the filter is at least 2 characters long (which forces it to
be non-empty); for any shorter district no request is made and no result is
produced. -/
theorem useOpportunities_gate (f : OpportunityFilters) :
    (useOpportunitiesRequest f = some f ↔
      2 ≤ f.postcode_district.length) ∧
    (f.postcode_district.length < 2 → useOpportunitiesRequest f = none) := by
  have hne : 2 ≤ f.postcode_district.length → f.postcode_district ≠ "" := by
    intro h2 he
    rw [he] at h2
    exact absurd h2 (by decide)
  constructor
  · constructor
    · intro h
      by_cases h2 : 2 ≤ f.postcode_district.length
      · exact h2
      · simp [useOpportunitiesRequest, useOpportunitiesEnabled, h2] at h
    · intro h2
      simp [useOpportunitiesRequest, useOpportunitiesEnabled, h2, hne h2]
  · intro hlt
    have h2 : ¬ 2 ≤ f.postcode_district.length := by omega
    simp [useOpportunitiesRequest, useOpportunitiesEnabled, h2]

/-- A filter with a valid 4-character postcode district. -/
def exFilters : OpportunityFilters :=
  { postcode_district := "SW15"
    min_discount_pct := none
    max_price := none
    property_types := none
    sort_by := none
    page := some 1
    per_page := some 12 }

/-- The same filter with a 1-character district. -/
def exFiltersShort : OpportunityFilters :=
  { exFilters with postcode_district := "S" }

/-- Witness for C8: the 4-character district "SW15" triggers the request;
the 1-character district "S" suppresses it. -/
theorem useOpportunities_gate_witness :
    useOpportunitiesRequest exFilters = some exFilters ∧
    useOpportunitiesRequest exFiltersShort = none :=
  ⟨(useOpportunities_gate exFilters).1.mpr (by decide),
    (useOpportunities_gate exFiltersShort).2 (by decide)⟩

/-- Membership in the `handleIngest` district list: exactly the non-empty
trimmed-and-uppercased comma-separated entries of the input. -/
theorem mem_handleIngestDistricts (input : String) (d : String) :
    d ∈ handleIngestDistricts input ↔
      (d ≠ "" ∧ ∃ raw ∈ splitOnComma input.data,
        d = String.mk ((trimChars raw).map Char.toUpper)) := by
  constructor
  · intro hmem
    rw [handleIngestDistricts, List.mem_filter] at hmem
    obtain ⟨hmap, hbne⟩ := hmem
    rw [List.mem_map] at hmap
    obtain ⟨raw, hraw, hfd⟩ := hmap
    exact ⟨by simpa using hbne, raw, hraw, hfd.symm⟩
  · rintro ⟨hdne, raw, hraw, rfl⟩
    rw [handleIngestDistricts, List.mem_filter]
    exact ⟨List.mem_map.mpr ⟨raw, hraw, rfl⟩, by simpa using hdne⟩

/-- C9: every ingestion request built by `handleIngest` on the admin page
carries source `"all"` and `force_refresh = false`; its district list holds
exactly the non-empty trimmed-and-uppercased comma-separated entries of the
text input; `postcode_districts` is omitted exactly when no non-empty entry
remains; and on the concrete input `"sw15, w14,,  "` the request is
`{source: "all", postcode_districts: ["SW15", "W14"], force_refresh: false}`. -/
theorem handleIngest_request_spec (input : String) :
    (handleIngestRequest input).source = some "all" ∧
    (handleIngestRequest input).force_refresh = some false ∧
    (∀ d : String,
      (∃ l, (handleIngestRequest input).postcode_districts = some l ∧ d ∈ l) ↔
        (d ≠ "" ∧ ∃ raw ∈ splitOnComma input.data,
          d = String.mk ((trimChars raw).map Char.toUpper))) ∧
    ((handleIngestRequest input).postcode_districts = none ↔
      handleIngestDistricts input = []) ∧
    handleIngestRequest "sw15, w14,,  " =
      { source := some "all"
        postcode_districts := some ["SW15", "W14"]
        force_refresh := some false } := by
  refine ⟨rfl, rfl, ?_, ?_, by decide⟩
  · intro d
    rw [← mem_handleIngestDistricts]
    by_cases hd : handleIngestDistricts input = []
    · simp [handleIngestRequest, hd]
    · have hlen : 0 < (handleIngestDistricts input).length :=
        List.length_pos.mpr hd
      simp [handleIngestRequest, hlen]
  · by_cases hd : handleIngestDistricts input = []
    · simp [handleIngestRequest, hd]
    · have hlen : 0 < (handleIngestDistricts input).length :=
        List.length_pos.mpr hd
      simp [handleIngestRequest, hlen, hd]

/-- Witness for C9: the empty input leaves no district entry, so the request
omits `postcode_districts`. -/
theorem handleIngest_request_spec_witness :
    (handleIngestRequest "").source = some "all" ∧
    (handleIngestRequest "").postcode_districts = none :=
  ⟨(handleIngest_request_spec "").1,
    (handleIngest_request_spec "").2.2.2.1.mpr (by decide)⟩

/-- C10: whenever the current page of the grid lies in `[1, pages]`, the Previous
button is disabled exactly when `page ≤ 1`, the Next button exactly when
`page ≥ pages`, the numbered buttons are exactly pages 1 through
`min(pages, 5)`, and every page number any rendered control can request lies
within `[1, pages]`. -/
theorem grid_pagination_bounds {α : Type} (d : PaginatedResponse α)
    (h1 : 1 ≤ d.page) (h2 : d.page ≤ d.pages) :
    (prevDisabled d = true ↔ d.page ≤ 1) ∧
    (nextDisabled d = true ↔ d.pages ≤ d.page) ∧
    (∀ q : ℕ, q ∈ numberedPages d ↔ (1 ≤ q ∧ q ≤ min d.pages 5)) ∧
    (∀ q ∈ requestablePages d, 1 ≤ q ∧ q ≤ d.pages) := by
  refine ⟨by simp [prevDisabled], by simp [nextDisabled], ?_, ?_⟩
  · intro q
    simp only [numberedPages, List.mem_map, List.mem_range]
    constructor
    · rintro ⟨i, hi, rfl⟩
      omega
    · rintro ⟨hq1, hq2⟩
      exact ⟨q - 1, by omega, by omega⟩
  · intro q hq
    simp only [requestablePages] at hq
    split at hq
    · simp at hq
    · rw [List.mem_append, List.mem_append] at hq
      rcases hq with (hq | hq) | hq
      · split at hq
        · simp at hq
        · next hprev =>
          simp only [List.mem_singleton] at hq
          subst hq
          simp only [prevDisabled, decide_eq_true_eq] at hprev
          omega
      · simp only [numberedPages, List.mem_map, List.mem_range] at hq
        obtain ⟨i, hi, rfl⟩ := hq
        omega
      · split at hq
        · simp at hq
        · next hnext =>
          simp only [List.mem_singleton] at hq
          subst hq
          simp only [nextDisabled, decide_eq_true_eq] at hnext
          omega

/-- A rendered page-2-of-3 response. -/
def exPaginated : PaginatedResponse ℕ :=
  { items := [], total := 45, page := 2, per_page := 20, pages := 3 }

/-- Witness for C10: on page 2 of 3, page 3 is requestable (via Next and via
its numbered button) and lies within `[1, pages]`. -/
theorem grid_pagination_bounds_witness :
    1 ≤ 3 ∧ 3 ≤ exPaginated.pages :=
  (grid_pagination_bounds exPaginated (by decide) (by decide)).2.2.2 3
    (by decide)

end Undervalued
